import Mathlib

/-!
A shallow embedding of `cpi-sqlite-db` (files `create_db.py`,
`insert_tables.py`) and proofs about it.

Modelling conventions:
* Python strings are Lean `String`s; Python slices `x[a:b]` / `x[a:]`
  become `pySlice` / `pyDropFrom` below, and `str.strip()` becomes
  `pyStrip` (both ends trimmed, as Python does).
* All cell values travel as text: the pandas type inference performed by
  `read_csv` (year to int, value to float) is abstracted away because no
  claim inspects numeric semantics — cells are kept as the source text.
* Network fetches (`read_text_from_url`) return `Option String`: `none`
  is the function's error return `None`.  Functions of the source whose
  exceptions are caught and logged are total here: the caught branch
  returns the unchanged table.
* SQLite tables are Lean lists of rows.  Dimension tables store rows as
  `List String` with the primary key in position 0; the fact table `data`
  stores `DataRow` records.  `INSERT OR IGNORE` against a primary key is
  `insertOrIgnore`; the `data` table's `id INTEGER PRIMARY KEY ON
  CONFLICT IGNORE` plus `UNIQUE(series_id, year, period)` (default
  ABORT) constraints are `insertDataRows`, where an ABORT makes the
  whole batch roll back, because both `with conn:` and pandas `to_sql`
  roll back the transaction on an exception.
-/

/-- The whitespace characters Python's `str.strip()` removes (ASCII range). -/
def pyIsSpace (c : Char) : Bool :=
  c = ' ' || c = '\t' || c = '\n' || c = '\x0d' || c = '\x0b' || c = '\x0c'

/-- Trim `pyIsSpace` characters from both ends of a character list. -/
def stripChars (l : List Char) : List Char :=
  ((l.dropWhile pyIsSpace).reverse.dropWhile pyIsSpace).reverse

/-- Python `s.strip()`: whitespace removed from both ends. -/
def pyStrip (s : String) : String := ⟨stripChars s.data⟩

/-- Python slice `s[a:b]` for `a ≤ b` (the only uses in the source). -/
def pySlice (s : String) (a b : Nat) : String := ⟨(s.data.drop a).take (b - a)⟩

/-- Python slice `s[a:]`. -/
def pyDropFrom (s : String) (a : Nat) : String := ⟨s.data.drop a⟩

/-- The five sub-fields `get_data_cols` derives from a `series_id` value
(`insert_tables.py` lines 49–53). -/
structure SeriesParts where
  pfx : String
  seasonal : String
  periodicity : String
  area_code : String
  item_code : String
  deriving Repr, DecidableEq

/-- The per-value decomposition applied by `get_data_cols`:
`x[:2]`, `x[2:3]`, `x[3:4]`, `x[4:8]`, `x[8:].strip()`. -/
def get_series_parts (x : String) : SeriesParts :=
  { pfx := pySlice x 0 2
  , seasonal := pySlice x 2 3
  , periodicity := pySlice x 3 4
  , area_code := pySlice x 4 8
  , item_code := pyStrip (pyDropFrom x 8) }

/-- One parsed line of the fact file `cu.data.0.Current` after
`text_to_df`: the five source columns, kept as text. -/
structure CsvFactRow where
  series_id : String
  year : String
  period : String
  value : String
  footnote_codes : String
  deriving Repr, DecidableEq

/-- One row of the `data` table (schema of `create_db.py` lines 51–69). -/
structure DataRow where
  id : Nat
  series_id : String
  pfx : String
  seasonal : String
  periodicity : String
  area_code : String
  item_code : String
  year : String
  period : String
  value : String
  footnote_codes : String
  deriving Repr, DecidableEq

/-- `get_data_cols` on one row: the pandas data frame gains an `id`
column equal to `index + 1` and the five decomposed columns; the source
columns are kept.  `i` is the 0-based data-frame index of the row. -/
def get_data_cols (i : Nat) (r : CsvFactRow) : DataRow :=
  let p := get_series_parts r.series_id
  { id := i + 1
  , series_id := r.series_id
  , pfx := p.pfx
  , seasonal := p.seasonal
  , periodicity := p.periodicity
  , area_code := p.area_code
  , item_code := p.item_code
  , year := r.year
  , period := r.period
  , value := r.value
  , footnote_codes := r.footnote_codes }

-- Basic slice lemmas ---------------------------------------------------------

theorem pySlice_length (s : String) (a b : Nat) :
    (pySlice s a b).length = min (b - a) (s.length - a) := by
  show ((s.data.drop a).take (b - a)).length = min (b - a) (s.length - a)
  rw [List.length_take, List.length_drop]
  rfl

theorem pyStrip_data (s : String) :
    (pyStrip s).data = stripChars s.data := rfl

theorem first8_split (l : List Char) :
    l.take 2 ++ ((l.drop 2).take 1 ++ ((l.drop 3).take 1 ++ (l.drop 4).take 4))
      = l.take 8 := by
  have h2 : l.take 8 = l.take 2 ++ (l.drop 2).take 6 := by
    simpa using List.take_add l 2 6
  have h3 : (l.drop 2).take 6 = (l.drop 2).take 1 ++ ((l.drop 2).drop 1).take 5 := by
    simpa using List.take_add (l.drop 2) 1 5
  have h4 : (l.drop 3).take 5 = (l.drop 3).take 1 ++ ((l.drop 3).drop 1).take 4 := by
    simpa using List.take_add (l.drop 3) 1 4
  have e23 : (l.drop 2).drop 1 = l.drop 3 := by simp
  have e34 : (l.drop 3).drop 1 = l.drop 4 := by simp
  rw [h2, h3, e23, h4, e34]

theorem append_data (s t : String) : (s ++ t).data = s.data ++ t.data := rfl

-- Helper lemmas about dropWhile / stripChars ---------------------------------

theorem mem_takeWhile_isSpace (p : Char → Bool) :
    ∀ (l : List Char), ∀ c ∈ l.takeWhile p, p c = true := by
  intro l
  induction l with
  | nil => intro c hc; simp [List.takeWhile] at hc
  | cons x xs ih =>
    intro c hc
    by_cases hx : p x
    · rw [List.takeWhile_cons_of_pos hx, List.mem_cons] at hc
      rcases hc with hc | hc
      · exact hc ▸ hx
      · exact ih c hc
    · rw [List.takeWhile_cons_of_neg hx] at hc
      simp at hc

theorem head_dropWhile_neg (p : Char → Bool) :
    ∀ (l : List Char) (c : Char), (l.dropWhile p).head? = some c → p c = false := by
  intro l
  induction l with
  | nil => intro c hc; simp [List.dropWhile] at hc
  | cons x xs ih =>
    intro c hc
    by_cases hx : p x
    · rw [List.dropWhile_cons_of_pos hx] at hc
      exact ih c hc
    · rw [List.dropWhile_cons_of_neg hx] at hc
      simp at hc
      rw [← hc]
      simpa using hx

theorem stripChars_decomposition (l : List Char) :
    ∃ a b : List Char, (∀ c ∈ a, pyIsSpace c = true) ∧ (∀ c ∈ b, pyIsSpace c = true) ∧
      l = a ++ stripChars l ++ b := by
  refine ⟨l.takeWhile pyIsSpace,
    ((l.dropWhile pyIsSpace).reverse.takeWhile pyIsSpace).reverse, ?_, ?_, ?_⟩
  · exact mem_takeWhile_isSpace pyIsSpace l
  · intro c hc
    rw [List.mem_reverse] at hc
    exact mem_takeWhile_isSpace pyIsSpace _ c hc
  · unfold stripChars
    conv_lhs => rw [← List.takeWhile_append_dropWhile (p := pyIsSpace) (l := l)]
    rw [List.append_assoc]
    congr 1
    conv_lhs => rw [← List.reverse_reverse (l.dropWhile pyIsSpace)]
    rw [← List.reverse_append]
    congr 1
    rw [List.takeWhile_append_dropWhile]

theorem stripChars_prefix (l : List Char) :
    ∃ t, l.dropWhile pyIsSpace = stripChars l ++ t := by
  unfold stripChars
  have hsuf : (l.dropWhile pyIsSpace).reverse.dropWhile pyIsSpace <:+
      (l.dropWhile pyIsSpace).reverse := List.dropWhile_suffix pyIsSpace
  rcases hsuf with ⟨t, ht⟩
  refine ⟨t.reverse, ?_⟩
  have := congrArg List.reverse ht
  rw [List.reverse_append, List.reverse_reverse] at this
  exact this.symm

theorem stripChars_head (l : List Char) (c : Char) :
    (stripChars l).head? = some c → pyIsSpace c = false := by
  intro hc
  rcases stripChars_prefix l with ⟨t, ht⟩
  apply head_dropWhile_neg pyIsSpace l c
  rw [ht]
  rcases hs : stripChars l with _ | ⟨x, xs⟩
  · rw [hs] at hc; simp at hc
  · rw [hs] at hc; simp at hc
    simp [hc]

theorem stripChars_last (l : List Char) (c : Char) :
    (stripChars l).getLast? = some c → pyIsSpace c = false := by
  intro hc
  unfold stripChars at hc
  rw [List.getLast?_reverse] at hc
  exact head_dropWhile_neg pyIsSpace _ c hc

-- C1 -------------------------------------------------------------------------

/-- C1: for every fact row whose `series_id` has length at least 8,
`get_data_cols` yields a prefix of length 2, a seasonal field of length
1, a periodicity field of length 1, an `area_code` of length 4, an
`item_code` equal to the trimmed remaining suffix, and the concatenation
of the first four parts is exactly the first 8 characters of
`series_id`. -/
theorem get_data_cols_decomposes (i : Nat) (r : CsvFactRow)
    (h : 8 ≤ r.series_id.length) :
    (get_data_cols i r).pfx.length = 2 ∧
    (get_data_cols i r).seasonal.length = 1 ∧
    (get_data_cols i r).periodicity.length = 1 ∧
    (get_data_cols i r).area_code.length = 4 ∧
    (get_data_cols i r).item_code = pyStrip (pyDropFrom r.series_id 8) ∧
    (get_data_cols i r).pfx ++ (get_data_cols i r).seasonal ++
        (get_data_cols i r).periodicity ++ (get_data_cols i r).area_code =
      pySlice r.series_id 0 8 := by
  refine ⟨?_, ?_, ?_, ?_, rfl, ?_⟩
  · show (pySlice r.series_id 0 2).length = 2
    rw [pySlice_length]; omega
  · show (pySlice r.series_id 2 3).length = 1
    rw [pySlice_length]; omega
  · show (pySlice r.series_id 3 4).length = 1
    rw [pySlice_length]; omega
  · show (pySlice r.series_id 4 8).length = 4
    rw [pySlice_length]; omega
  · apply String.ext
    show ((r.series_id.data.take 2 ++ (r.series_id.data.drop 2).take 1) ++
        (r.series_id.data.drop 3).take 1) ++ (r.series_id.data.drop 4).take 4 =
      r.series_id.data.take 8
    rw [List.append_assoc, List.append_assoc]
    exact first8_split r.series_id.data

/-- Witness for C1 at the concrete series_id "CUSR0000SA0". -/
theorem get_data_cols_decomposes_witness :
    8 ≤ (CsvFactRow.mk "CUSR0000SA0" "1997" "M01" "160.0" "").series_id.length ∧
    ((get_data_cols 0 (CsvFactRow.mk "CUSR0000SA0" "1997" "M01" "160.0" "")).pfx.length = 2 ∧
     (get_data_cols 0 (CsvFactRow.mk "CUSR0000SA0" "1997" "M01" "160.0" "")).seasonal.length = 1 ∧
     (get_data_cols 0 (CsvFactRow.mk "CUSR0000SA0" "1997" "M01" "160.0" "")).periodicity.length = 1 ∧
     (get_data_cols 0 (CsvFactRow.mk "CUSR0000SA0" "1997" "M01" "160.0" "")).area_code.length = 4 ∧
     (get_data_cols 0 (CsvFactRow.mk "CUSR0000SA0" "1997" "M01" "160.0" "")).item_code =
       pyStrip (pyDropFrom (CsvFactRow.mk "CUSR0000SA0" "1997" "M01" "160.0" "").series_id 8) ∧
     (get_data_cols 0 (CsvFactRow.mk "CUSR0000SA0" "1997" "M01" "160.0" "")).pfx ++
         (get_data_cols 0 (CsvFactRow.mk "CUSR0000SA0" "1997" "M01" "160.0" "")).seasonal ++
         (get_data_cols 0 (CsvFactRow.mk "CUSR0000SA0" "1997" "M01" "160.0" "")).periodicity ++
         (get_data_cols 0 (CsvFactRow.mk "CUSR0000SA0" "1997" "M01" "160.0" "")).area_code =
       pySlice (CsvFactRow.mk "CUSR0000SA0" "1997" "M01" "160.0" "").series_id 0 8) :=
  ⟨by decide, get_data_cols_decomposes 0 _ (by decide)⟩

-- C5 -------------------------------------------------------------------------

/-- The C5 sentence's reading of the item_code rule: the suffix from
index 8 with only trailing whitespace removed and leading whitespace
preserved.  Written from the spec's words, for comparison with the
source's `get_series_parts`, which uses Python `strip()` (both ends). -/
def item_code_spec_rstrip (x : String) : String :=
  ⟨((pyDropFrom x 8).data.reverse.dropWhile pyIsSpace).reverse⟩

/-- C5 counterexample: on series_id "CUSR0000 SA0" (whitespace right
after the 8 fixed characters) the source's item_code is "SA0", not the
leading-whitespace-preserving " SA0" that the claim describes. -/
theorem item_code_leading_ws_not_preserved :
    (get_series_parts "CUSR0000 SA0").item_code ≠
      item_code_spec_rstrip "CUSR0000 SA0" := by decide

/-- C5 (amended): for every series_id `x`, `item_code` is the suffix
`x[8:]` with whitespace trimmed from BOTH ends (Python `strip()`), so
leading whitespace of the suffix is removed, not preserved: the suffix
splits as whitespace ++ item_code ++ whitespace and item_code neither
starts nor ends with a whitespace character. -/
theorem item_code_strips_both_ends (x : String) :
    (get_series_parts x).item_code = pyStrip (pyDropFrom x 8) ∧
    (∃ a b : List Char, (∀ c ∈ a, pyIsSpace c = true) ∧ (∀ c ∈ b, pyIsSpace c = true) ∧
      (pyDropFrom x 8).data = a ++ (get_series_parts x).item_code.data ++ b) ∧
    (∀ c : Char, ((get_series_parts x).item_code.data.head? = some c → pyIsSpace c = false) ∧
      ((get_series_parts x).item_code.data.getLast? = some c → pyIsSpace c = false)) := by
  refine ⟨rfl, ?_, ?_⟩
  · rcases stripChars_decomposition (x.data.drop 8) with ⟨a, b, ha, hb, hl⟩
    exact ⟨a, b, ha, hb, hl⟩
  · intro c
    exact ⟨stripChars_head _ c, stripChars_last _ c⟩


-- Dimension tables -----------------------------------------------------------

/-- Python `str.split(c)` for a single-character separator, on char
lists.  The separators used by the source (`'\t'`, `'\n'`) are single
characters. -/
def splitChar (c : Char) : List Char → List (List Char)
  | [] => [[]]
  | x :: xs =>
    match splitChar c xs with
    | [] => [[x]]
    | y :: ys => if x = c then [] :: y :: ys else (x :: y) :: ys

/-- Python `s.split(c)` on strings. -/
def pySplit (s : String) (c : Char) : List String :=
  (splitChar c s.data).map (fun l => ⟨l⟩)

/-- A dimension-table row as stored: the positional fields of one input
line.  The table's primary key is field 0 (`create_db.py`: `areas`,
`items`, `periods` each declare their first column `TEXT NOT NULL
PRIMARY KEY`). -/
abbrev DimRow := List String

/-- Key uniqueness, the invariant the primary key of a dimension table
maintains: no two stored rows share their key field. -/
def keyUnique (t : List DimRow) : Prop :=
  List.Pairwise (fun r s => r.head? ≠ s.head?) t

instance (t : List DimRow) : Decidable (keyUnique t) := by
  unfold keyUnique; infer_instance

/-- `INSERT OR IGNORE INTO t VALUES (...)` executed row by row
(`cursor.executemany`): a row whose primary-key field equals that of a
row already present is skipped, otherwise it is appended. -/
def insertOrIgnore (t : List DimRow) (rows : List DimRow) : List DimRow :=
  rows.foldl (fun acc r => if acc.any (fun x => x.head? == r.head?) then acc else acc ++ [r]) t

/-- The row-parsing done by `insert_non_data_table` (lines 94–95):
`text.strip().split('\n')`, drop the header line, split each remaining
line on the separator. -/
def parseDimRows (text : String) (sep : Char) : List DimRow :=
  ((pySplit (pyStrip text) '\n').drop 1).map (fun r => pySplit r sep)

/-- `insert_non_data_table` (lines 77–108) with transport and database
abstracted: `text` is what `read_text_from_url` returned (`none` =
failure), `t` the current contents of the target table, `arity` its
declared column count.  Branches of the source:

* `none` or the empty string (`if text:` is false): log, table unchanged;
* no data rows: `rows[0]` raises IndexError, caught by the outer
  `except`, table unchanged;
* the prepared INSERT has `len(rows[0])` placeholders, so if that count
  differs from the table's arity the statement itself errors, and if
  some row's width differs from `len(rows[0])` parameter binding in
  `executemany` errors; either exception aborts the `with conn:` block,
  which rolls the transaction back: table unchanged;
* otherwise all rows are inserted with OR IGNORE and committed. -/
def insert_non_data_table (t : List DimRow) (arity : Nat) (text : Option String)
    (sep : Char) : List DimRow :=
  match text with
  | none => t
  | some txt =>
    if txt = "" then t
    else
      match parseDimRows txt sep with
      | [] => t
      | r0 :: rest =>
        if r0.length = arity ∧ ∀ r ∈ r0 :: rest, r.length = r0.length
        then insertOrIgnore t (r0 :: rest)
        else t

-- Unfolding lemmas for insert_non_data_table ---------------------------------

theorem indt_none (t : List DimRow) (arity : Nat) (sep : Char) :
    insert_non_data_table t arity none sep = t := rfl

theorem indt_some (t : List DimRow) (arity : Nat) (txt : String) (sep : Char)
    (he : ¬ txt = "") :
    insert_non_data_table t arity (some txt) sep =
      (match parseDimRows txt sep with
       | [] => t
       | r0 :: rest =>
         if r0.length = arity ∧ ∀ r ∈ r0 :: rest, r.length = r0.length
         then insertOrIgnore t (r0 :: rest)
         else t) := by
  show (if txt = "" then t
    else match parseDimRows txt sep with
      | [] => t
      | r0 :: rest =>
        if r0.length = arity ∧ ∀ r ∈ r0 :: rest, r.length = r0.length
        then insertOrIgnore t (r0 :: rest)
        else t) = _
  rw [if_neg he]

theorem indt_parse_nil (t : List DimRow) (arity : Nat) (txt : String) (sep : Char)
    (he : ¬ txt = "") (hp : parseDimRows txt sep = []) :
    insert_non_data_table t arity (some txt) sep = t := by
  rw [indt_some t arity txt sep he, hp]

theorem indt_cond_true (t : List DimRow) (arity : Nat) (txt : String) (sep : Char)
    (r0 : DimRow) (rest : List DimRow) (he : ¬ txt = "")
    (hp : parseDimRows txt sep = r0 :: rest)
    (hc : r0.length = arity ∧ ∀ r ∈ r0 :: rest, r.length = r0.length) :
    insert_non_data_table t arity (some txt) sep = insertOrIgnore t (r0 :: rest) := by
  rw [indt_some t arity txt sep he, hp]
  show (if r0.length = arity ∧ ∀ r ∈ r0 :: rest, r.length = r0.length
    then insertOrIgnore t (r0 :: rest) else t) = _
  rw [if_pos hc]

theorem indt_cond_false (t : List DimRow) (arity : Nat) (txt : String) (sep : Char)
    (r0 : DimRow) (rest : List DimRow) (he : ¬ txt = "")
    (hp : parseDimRows txt sep = r0 :: rest)
    (hc : ¬ (r0.length = arity ∧ ∀ r ∈ r0 :: rest, r.length = r0.length)) :
    insert_non_data_table t arity (some txt) sep = t := by
  rw [indt_some t arity txt sep he, hp]
  show (if r0.length = arity ∧ ∀ r ∈ r0 :: rest, r.length = r0.length
    then insertOrIgnore t (r0 :: rest) else t) = _
  rw [if_neg hc]

-- insertOrIgnore lemmas ------------------------------------------------------

theorem insertOrIgnore_nil (t : List DimRow) : insertOrIgnore t [] = t := rfl

theorem insertOrIgnore_cons (t : List DimRow) (r : DimRow) (rs : List DimRow) :
    insertOrIgnore t (r :: rs) =
      insertOrIgnore (if t.any (fun x => x.head? == r.head?) then t else t ++ [r]) rs := rfl

theorem insertOrIgnore_mono (rows : List DimRow) :
    ∀ t : List DimRow, ∃ u, insertOrIgnore t rows = t ++ u := by
  induction rows with
  | nil => intro t; exact ⟨[], by simp [insertOrIgnore]⟩
  | cons r rs ih =>
    intro t
    rw [insertOrIgnore_cons]
    by_cases hk : t.any (fun x => x.head? == r.head?)
    · rw [if_pos hk]; exact ih t
    · rw [if_neg hk]
      rcases ih (t ++ [r]) with ⟨u, hu⟩
      exact ⟨[r] ++ u, by rw [hu, List.append_assoc]⟩

theorem insertOrIgnore_key_present (rows : List DimRow) :
    ∀ t : List DimRow, ∀ r ∈ rows,
      (insertOrIgnore t rows).any (fun x => x.head? == r.head?) = true := by
  induction rows with
  | nil => intro t r hr; simp at hr
  | cons r rs ih =>
    intro t r' hr'
    rw [insertOrIgnore_cons]
    set t1 := if t.any (fun x => x.head? == r.head?) then t else t ++ [r] with ht1
    have hkey : t1.any (fun x => x.head? == r.head?) = true := by
      by_cases hk : t.any (fun x => x.head? == r.head?)
      · rw [ht1, if_pos hk]; exact hk
      · rw [ht1, if_neg hk]
        simp [List.any_append]
    rcases List.mem_cons.mp hr' with h | h
    · subst h
      rcases insertOrIgnore_mono rs t1 with ⟨u, hu⟩
      rw [hu, List.any_append, hkey]
      simp
    · exact ih t1 r' h

theorem insertOrIgnore_all_present (rows : List DimRow) :
    ∀ t : List DimRow,
      (∀ r ∈ rows, t.any (fun x => x.head? == r.head?) = true) →
      insertOrIgnore t rows = t := by
  induction rows with
  | nil => intro t _; rfl
  | cons r rs ih =>
    intro t hall
    rw [insertOrIgnore_cons, if_pos (hall r (List.mem_cons_self r rs))]
    exact ih t (fun r' hr' => hall r' (List.mem_cons_of_mem r hr'))

theorem insertOrIgnore_keyUnique (rows : List DimRow) :
    ∀ t : List DimRow, keyUnique t → keyUnique (insertOrIgnore t rows) := by
  induction rows with
  | nil => intro t ht; exact ht
  | cons r rs ih =>
    intro t ht
    rw [insertOrIgnore_cons]
    by_cases hk : t.any (fun x => x.head? == r.head?)
    · rw [if_pos hk]; exact ih t ht
    · rw [if_neg hk]
      apply ih
      rw [keyUnique, List.pairwise_append]
      refine ⟨ht, List.pairwise_singleton _ _, ?_⟩
      intro x hx y hy
      rw [List.mem_singleton] at hy
      subst hy
      intro hxy
      apply hk
      rw [List.any_eq_true]
      exact ⟨x, hx, by simp [hxy]⟩

-- C4 -------------------------------------------------------------------------

/-- C4: loading the same dimension text twice through
`insert_non_data_table` is idempotent — the second run returns the table
of the first run unchanged (so the row count does not change and no
already-present key is duplicated), and no failure escapes (the function
is total: every error branch of the source is caught and leaves the
table as it was).  In addition a load preserves key uniqueness. -/
theorem insert_non_data_table_idempotent (t : List DimRow) (arity : Nat)
    (text : Option String) (sep : Char) :
    insert_non_data_table (insert_non_data_table t arity text sep) arity text sep =
      insert_non_data_table t arity text sep ∧
    (keyUnique t → keyUnique (insert_non_data_table t arity text sep)) := by
  constructor
  · match text with
    | none => rfl
    | some txt =>
      by_cases he : txt = ""
      · subst he; rfl
      · rcases hp : parseDimRows txt sep with _ | ⟨r0, rest⟩
        · have h := indt_parse_nil t arity txt sep he hp
          rw [h, h]
        · by_cases hc : r0.length = arity ∧ ∀ r ∈ r0 :: rest, r.length = r0.length
          · rw [indt_cond_true t arity txt sep r0 rest he hp hc,
              indt_cond_true (insertOrIgnore t (r0 :: rest)) arity txt sep r0 rest he hp hc]
            exact insertOrIgnore_all_present (r0 :: rest) _
              (fun r hr => insertOrIgnore_key_present (r0 :: rest) t r hr)
          · have h := indt_cond_false t arity txt sep r0 rest he hp hc
            rw [h, h]
  · intro hu
    match text with
    | none => exact hu
    | some txt =>
      by_cases he : txt = ""
      · subst he; exact hu
      · rcases hp : parseDimRows txt sep with _ | ⟨r0, rest⟩
        · rw [indt_parse_nil t arity txt sep he hp]; exact hu
        · by_cases hc : r0.length = arity ∧ ∀ r ∈ r0 :: rest, r.length = r0.length
          · rw [indt_cond_true t arity txt sep r0 rest he hp hc]
            exact insertOrIgnore_keyUnique (r0 :: rest) t hu
          · rw [indt_cond_false t arity txt sep r0 rest he hp hc]; exact hu

/-- A concrete dimension file: header plus one row, shaped like
`cu.area` (5 columns). -/
def dimText : String :=
  "area_code\tarea_name\tdisplay_level\tselectable\tsort_sequence\n0000\tU.S. city average\t0\tT\t1"

/-- Witness for C4: loading `dimText` into an empty `areas` table twice
leaves the table of the first load unchanged, and the result has unique
keys. -/
theorem insert_non_data_table_idempotent_witness :
    insert_non_data_table (insert_non_data_table [] 5 (some dimText) '\t') 5
        (some dimText) '\t' =
      insert_non_data_table [] 5 (some dimText) '\t' ∧
    keyUnique (insert_non_data_table [] 5 (some dimText) '\t') :=
  ⟨(insert_non_data_table_idempotent [] 5 (some dimText) '\t').1,
   (insert_non_data_table_idempotent [] 5 (some dimText) '\t').2 (by decide)⟩

-- C6 -------------------------------------------------------------------------

/-- C6: if some parsed data row's width differs from the target table's
column count, the bulk insert errors as a whole (wrong placeholder count
in the prepared statement, or a binding failure inside `executemany`)
and the transaction of `with conn:` rolls back: the operation is atomic
and the table is left exactly unchanged. -/
theorem insert_non_data_table_malformed (t : List DimRow) (arity : Nat)
    (txt : String) (sep : Char) (r : DimRow) (hr : r ∈ parseDimRows txt sep)
    (hw : r.length ≠ arity) :
    insert_non_data_table t arity (some txt) sep = t := by
  by_cases he : txt = ""
  · subst he; rfl
  · rcases hp : parseDimRows txt sep with _ | ⟨r0, rest⟩
    · exact indt_parse_nil t arity txt sep he hp
    · rw [hp] at hr
      have hc : ¬(r0.length = arity ∧ ∀ x ∈ r0 :: rest, x.length = r0.length) := by
        rintro ⟨h1, h2⟩
        exact hw ((h2 r hr).trans h1)
      exact indt_cond_false t arity txt sep r0 rest he hp hc

/-- A malformed dimension file for the 5-column `areas` table: its data
row has only 2 fields. -/
def dimTextMalformed : String := "area_code\tarea_name\n0000\tU.S. city average"

/-- Witness for C6: loading the 2-field row into a nonempty 5-column
table leaves the table exactly as it was. -/
theorem insert_non_data_table_malformed_witness :
    ["0000", "U.S. city average"] ∈ parseDimRows dimTextMalformed '\t' ∧
    (["0000", "U.S. city average"] : DimRow).length ≠ 5 ∧
    insert_non_data_table [["0001", "x", "0", "T", "1"]] 5 (some dimTextMalformed) '\t' =
      [["0001", "x", "0", "T", "1"]] :=
  ⟨by decide, by decide,
   insert_non_data_table_malformed [["0001", "x", "0", "T", "1"]] 5 dimTextMalformed '\t'
     ["0000", "U.S. city average"] (by decide) (by decide)⟩

-- C10 ------------------------------------------------------------------------

/-- C10: a fetched dimension text with only a header line (a single
line, hence no data rows) leaves the table unchanged and raises nothing:
the source's `rows[0]` IndexError is caught by the surrounding `except`
and no insert is executed. -/
theorem insert_non_data_table_header_only (t : List DimRow) (arity : Nat)
    (txt : String) (sep : Char) (h : (pySplit (pyStrip txt) '\n').length = 1) :
    insert_non_data_table t arity (some txt) sep = t := by
  have hp : parseDimRows txt sep = [] := by
    unfold parseDimRows
    rw [List.drop_eq_nil_of_le (by omega)]
    rfl
  by_cases he : txt = ""
  · subst he; rfl
  · exact indt_parse_nil t arity txt sep he hp

/-- Witness for C10: a header-only `cu.area` fetch against a nonempty
table changes nothing. -/
theorem insert_non_data_table_header_only_witness :
    (pySplit (pyStrip "area_code\tarea_name") '\n').length = 1 ∧
    insert_non_data_table [["0000", "U.S. city average"]] 5
        (some "area_code\tarea_name") '\t' = [["0000", "U.S. city average"]] :=
  ⟨by decide,
   insert_non_data_table_header_only [["0000", "U.S. city average"]] 5
     "area_code\tarea_name" '\t' (by decide)⟩

-- The data (fact) table ------------------------------------------------------

/-- Conflict on `id`: the `data` table declares `id INTEGER NOT NULL
PRIMARY KEY ON CONFLICT IGNORE` (`create_db.py` line 53), so an insert
whose id is already present is silently skipped. -/
def idConflict (t : List DataRow) (r : DataRow) : Bool :=
  t.any (fun x => x.id == r.id)

/-- Conflict on `UNIQUE(series_id, year, period)` (`create_db.py` line
67); its resolution is the default, ABORT. -/
def tripleConflict (t : List DataRow) (r : DataRow) : Bool :=
  t.any (fun x => x.series_id == r.series_id &&
    (x.year == r.year && x.period == r.period))

/-- Row-by-row insertion into `data` under the two constraints.  SQLite
checks the rowid (`id`) constraint first and its IGNORE clause skips the
row; a violation of the UNIQUE triple aborts the statement, and pandas
`to_sql` then rolls the whole transaction back, so an aborted batch is
`none` (the caller keeps the unchanged table). -/
def insertDataRows : List DataRow → List DataRow → Option (List DataRow)
  | t, [] => some t
  | t, r :: rs =>
    if idConflict t r then insertDataRows t rs
    else if tripleConflict t r then none
    else insertDataRows (t ++ [r]) rs

/-- `data['id'] = data.index + 1` combined with `get_data_cols`: the row
at 0-based index `i` becomes a `DataRow` with surrogate id `i + 1`. -/
def numberRows : Nat → List CsvFactRow → List DataRow
  | _, [] => []
  | i, r :: rs => get_data_cols i r :: numberRows (i + 1) rs

/-- The batch of rows `insert_data_table` tries to append. -/
def newDataRows (rows : List CsvFactRow) : List DataRow := numberRows 0 rows

/-- `insert_data_table` (lines 110–134) with transport, parsing and
database abstracted: `parsed = none` models both a failed fetch
(`read_text_from_url` returned `None`) and a failed parse (`text_to_df`
returned `None`, so `data['id'] = ...` raises and is caught).  A
constraint abort rolls the batch back and the exception is caught, so
the table is unchanged; otherwise the surviving rows are appended. -/
def insert_data_table (t : List DataRow) (parsed : Option (List CsvFactRow)) :
    List DataRow :=
  match parsed with
  | none => t
  | some rows =>
    match insertDataRows t (newDataRows rows) with
    | some res => res
    | none => t

/-- Two observations agreeing on the unique triple. -/
def sameTriple (a b : DataRow) : Prop :=
  a.series_id = b.series_id ∧ a.year = b.year ∧ a.period = b.period

instance (a b : DataRow) : Decidable (sameTriple a b) := by
  unfold sameTriple; infer_instance

/-- The uniqueness invariant of the `data` table: no two stored rows
share their `(series_id, year, period)` triple. -/
def uniqueTriples (t : List DataRow) : Prop :=
  List.Pairwise (fun a b => ¬ sameTriple a b) t

instance (t : List DataRow) : Decidable (uniqueTriples t) := by
  unfold uniqueTriples; infer_instance

-- insertDataRows lemmas ------------------------------------------------------

theorem idConflict_append (t u : List DataRow) (r : DataRow)
    (h : idConflict t r = true) : idConflict (t ++ u) r = true := by
  unfold idConflict at h ⊢
  rw [List.any_append, h]
  rfl

theorem idConflict_mem (t : List DataRow) (r : DataRow) (h : r ∈ t) :
    idConflict t r = true := by
  unfold idConflict
  rw [List.any_eq_true]
  exact ⟨r, h, by simp⟩

theorem insertDataRows_mono :
    ∀ (rs t res : List DataRow), insertDataRows t rs = some res → ∃ u, res = t ++ u := by
  intro rs
  induction rs with
  | nil =>
    intro t res h
    simp only [insertDataRows, Option.some.injEq] at h
    exact ⟨[], by rw [← h, List.append_nil]⟩
  | cons r rs ih =>
    intro t res h
    simp only [insertDataRows] at h
    by_cases h1 : idConflict t r
    · rw [if_pos h1] at h
      exact ih t res h
    · rw [if_neg h1] at h
      by_cases h2 : tripleConflict t r
      · rw [if_pos h2] at h; cases h
      · rw [if_neg h2] at h
        rcases ih (t ++ [r]) res h with ⟨u, hu⟩
        exact ⟨[r] ++ u, by rw [hu, List.append_assoc]⟩

theorem insertDataRows_id_present :
    ∀ (rs t res : List DataRow), insertDataRows t rs = some res →
      ∀ r ∈ rs, idConflict res r = true := by
  intro rs
  induction rs with
  | nil => intro t res _ r hr; simp at hr
  | cons r rs ih =>
    intro t res h r' hr'
    simp only [insertDataRows] at h
    by_cases h1 : idConflict t r
    · rw [if_pos h1] at h
      rcases List.mem_cons.mp hr' with he | he
      · subst he
        rcases insertDataRows_mono rs t res h with ⟨u, hu⟩
        rw [hu]
        exact idConflict_append t u r' h1
      · exact ih t res h r' he
    · rw [if_neg h1] at h
      by_cases h2 : tripleConflict t r
      · rw [if_pos h2] at h; cases h
      · rw [if_neg h2] at h
        rcases List.mem_cons.mp hr' with he | he
        · subst he
          rcases insertDataRows_mono rs (t ++ [r']) res h with ⟨u, hu⟩
          rw [hu]
          exact idConflict_mem _ r' (by simp)
        · exact ih (t ++ [r]) res h r' he

theorem insertDataRows_all_conflict :
    ∀ (rs t : List DataRow), (∀ r ∈ rs, idConflict t r = true) →
      insertDataRows t rs = some t := by
  intro rs
  induction rs with
  | nil => intro t _; rfl
  | cons r rs ih =>
    intro t hall
    simp only [insertDataRows]
    rw [if_pos (hall r (List.mem_cons_self r rs))]
    exact ih t (fun r' h => hall r' (List.mem_cons_of_mem r h))

theorem insertDataRows_uniqueTriples :
    ∀ (rs t res : List DataRow), uniqueTriples t →
      insertDataRows t rs = some res → uniqueTriples res := by
  intro rs
  induction rs with
  | nil =>
    intro t res ht h
    simp only [insertDataRows, Option.some.injEq] at h
    rwa [← h]
  | cons r rs ih =>
    intro t res ht h
    simp only [insertDataRows] at h
    by_cases h1 : idConflict t r
    · rw [if_pos h1] at h
      exact ih t res ht h
    · rw [if_neg h1] at h
      by_cases h2 : tripleConflict t r
      · rw [if_pos h2] at h; cases h
      · rw [if_neg h2] at h
        apply ih (t ++ [r]) res _ h
        rw [uniqueTriples, List.pairwise_append]
        refine ⟨ht, List.pairwise_singleton _ _, ?_⟩
        intro x hx y hy
        rw [List.mem_singleton] at hy
        subst hy
        intro hxy
        apply h2
        unfold tripleConflict
        rw [List.any_eq_true]
        exact ⟨x, hx, by simp [hxy.1, hxy.2.1, hxy.2.2]⟩

-- C3 -------------------------------------------------------------------------

/-- C3: `(series_id, year, period)` stays unique in the `data` table
across any `insert_data_table` call, and re-running the very same load
on the resulting table is a no-op — every batch row now collides on the
conflict-ignored `id` primary key (or the whole batch aborts exactly as
before), so no duplicate row for any triple is ever produced. -/
theorem insert_data_table_triple_unique (t : List DataRow)
    (parsed : Option (List CsvFactRow)) (h : uniqueTriples t) :
    uniqueTriples (insert_data_table t parsed) ∧
    insert_data_table (insert_data_table t parsed) parsed =
      insert_data_table t parsed := by
  match parsed with
  | none => exact ⟨h, rfl⟩
  | some rows =>
    rcases hins : insertDataRows t (newDataRows rows) with _ | res
    · have h1 : insert_data_table t (some rows) = t := by
        show (match insertDataRows t (newDataRows rows) with
          | some res => res | none => t) = t
        rw [hins]
      rw [h1]
      exact ⟨h, h1⟩
    · have h1 : insert_data_table t (some rows) = res := by
        show (match insertDataRows t (newDataRows rows) with
          | some res => res | none => t) = res
        rw [hins]
      rw [h1]
      refine ⟨insertDataRows_uniqueTriples (newDataRows rows) t res h hins, ?_⟩
      have hall : ∀ r ∈ newDataRows rows, idConflict res r = true :=
        insertDataRows_id_present (newDataRows rows) t res hins
      have h2 : insertDataRows res (newDataRows rows) = some res :=
        insertDataRows_all_conflict (newDataRows rows) res hall
      show (match insertDataRows res (newDataRows rows) with
        | some r => r | none => res) = res
      rw [h2]

/-- A concrete fact-file row. -/
def factRow1 : CsvFactRow :=
  CsvFactRow.mk "CUSR0000SA0" "1997" "M01" "159.4" ""

/-- Witness for C3: loading one observation into the empty table keeps
triples unique, and re-loading it changes nothing. -/
theorem insert_data_table_triple_unique_witness :
    uniqueTriples (insert_data_table [] (some [factRow1])) ∧
    insert_data_table (insert_data_table [] (some [factRow1])) (some [factRow1]) =
      insert_data_table [] (some [factRow1]) :=
  insert_data_table_triple_unique [] (some [factRow1]) (by decide)

-- Column arrangement (arrange_data_cols) -------------------------------------

/-- A data-frame cell: the surrogate id is a number, everything else
text (see the modelling conventions at the top of the file). -/
inductive Cell where
  | n (v : Nat)
  | s (v : String)
  deriving Repr, DecidableEq

/-- Column lookup in the 11-column data frame produced by
`get_data_cols`; a missing name is a pandas KeyError (`none`). -/
def colValue (d : DataRow) (c : String) : Option Cell :=
  if c = "id" then some (.n d.id)
  else if c = "series_id" then some (.s d.series_id)
  else if c = "prefix" then some (.s d.pfx)
  else if c = "seasonal" then some (.s d.seasonal)
  else if c = "periodicity" then some (.s d.periodicity)
  else if c = "area_code" then some (.s d.area_code)
  else if c = "item_code" then some (.s d.item_code)
  else if c = "year" then some (.s d.year)
  else if c = "period" then some (.s d.period)
  else if c = "value" then some (.s d.value)
  else if c = "footnote_codes" then some (.s d.footnote_codes)
  else none

/-- `arrange_data_cols` (lines 56–58): `data[cols]` selects the named
columns in the given order, per row. -/
def arrange_data_cols (d : DataRow) (cols : List String) : Option (List Cell) :=
  cols.mapM (colValue d)

/-- The `data_cols` list passed by `update_db` (line 167). -/
def column_order : List String :=
  ["id", "series_id", "prefix", "seasonal", "periodicity", "area_code",
   "item_code", "year", "period", "value", "footnote_codes"]

/-- The cells of a stored `data` row in the schema's column order. -/
def rowCells (d : DataRow) : List Cell :=
  [.n d.id, .s d.series_id, .s d.pfx, .s d.seasonal, .s d.periodicity,
   .s d.area_code, .s d.item_code, .s d.year, .s d.period, .s d.value,
   .s d.footnote_codes]

-- numberRows lemmas ----------------------------------------------------------

theorem numberRows_length : ∀ (rs : List CsvFactRow) (j : Nat),
    (numberRows j rs).length = rs.length := by
  intro rs
  induction rs with
  | nil => intro j; rfl
  | cons r rs ih =>
    intro j
    simp only [numberRows, List.length_cons, ih (j + 1)]

theorem numberRows_getElem : ∀ (rs : List CsvFactRow) (j i : Nat),
    (numberRows j rs)[i]? = (rs[i]?).map (fun r => get_data_cols (j + i) r) := by
  intro rs
  induction rs with
  | nil => intro j i; simp [numberRows]
  | cons r rs ih =>
    intro j i
    match i with
    | 0 => simp [numberRows]
    | n + 1 =>
      simp only [numberRows, List.getElem?_cons_succ]
      rw [ih (j + 1) n]
      have : j + 1 + n = j + (n + 1) := by omega
      rw [this]

theorem numberRows_id_ge : ∀ (rs : List CsvFactRow) (j : Nat),
    ∀ d ∈ numberRows j rs, j + 1 ≤ d.id := by
  intro rs
  induction rs with
  | nil => intro j d hd; simp [numberRows] at hd
  | cons r rs ih =>
    intro j d hd
    simp only [numberRows] at hd
    rcases List.mem_cons.mp hd with he | he
    · subst he
      show j + 1 ≤ j + 1
      omega
    · have := ih (j + 1) d he
      omega

theorem numberRows_ids_pairwise : ∀ (rs : List CsvFactRow) (j : Nat),
    List.Pairwise (fun a b : DataRow => a.id ≠ b.id) (numberRows j rs) := by
  intro rs
  induction rs with
  | nil => intro j; simp [numberRows]
  | cons r rs ih =>
    intro j
    simp only [numberRows]
    rw [List.pairwise_cons]
    constructor
    · intro d hd
      have hge := numberRows_id_ge rs (j + 1) d hd
      show j + 1 ≠ d.id
      omega
    · exact ih (j + 1)

theorem insertDataRows_append_all :
    ∀ (rs t : List DataRow), (∀ r ∈ rs, idConflict t r = false) →
      List.Pairwise (fun a b : DataRow => a.id ≠ b.id) rs →
      uniqueTriples (t ++ rs) →
      insertDataRows t rs = some (t ++ rs) := by
  intro rs
  induction rs with
  | nil => intro t _ _ _; simp [insertDataRows]
  | cons r rs ih =>
    intro t hid hpw htr
    simp only [insertDataRows]
    have hco : ¬ (idConflict t r = true) := by
      rw [hid r (List.mem_cons_self r rs)]
      simp
    rw [if_neg hco]
    have htc : ¬ (tripleConflict t r = true) := by
      intro hc
      unfold tripleConflict at hc
      rw [List.any_eq_true] at hc
      rcases hc with ⟨x, hx, hb⟩
      rw [uniqueTriples, List.pairwise_append] at htr
      apply htr.2.2 x hx r (List.mem_cons_self r rs)
      simp only [Bool.and_eq_true, beq_iff_eq] at hb
      exact ⟨hb.1, hb.2.1, hb.2.2⟩
    rw [if_neg htc]
    have hassoc : (t ++ [r]) ++ rs = t ++ r :: rs := by simp
    have hpc := List.pairwise_cons.mp hpw
    have hid2 : ∀ r' ∈ rs, idConflict (t ++ [r]) r' = false := by
      intro r' hr'
      unfold idConflict
      rw [List.any_append]
      have h1 : idConflict t r' = false := hid r' (List.mem_cons_of_mem r hr')
      unfold idConflict at h1
      rw [h1]
      simp only [Bool.false_or, List.any_cons, List.any_nil, Bool.or_false]
      rw [beq_eq_false_iff_ne]
      exact hpc.1 r' hr'
    have htr2 : uniqueTriples ((t ++ [r]) ++ rs) := by
      rw [hassoc]; exact htr
    rw [ih (t ++ [r]) hid2 hpc.2 htr2, hassoc]

-- C9 -------------------------------------------------------------------------

/-- C9: for a successfully fetched and parsed fact file, on a table
state where the batch raises no constraint conflict (hypotheses `hid`,
`htr`; on conflicts the engine's constraints intervene, see C3),
`insert_data_table` appends exactly the batch: the i-th source row
(0-based `i`) receives surrogate id `i + 1`, its `series_id` is carried
over and decomposed into the sub-fields of `get_series_parts`, the
columns are reordered to `column_order`, and all `rows.length` rows are
appended in source order. -/
theorem insert_data_table_appends (t : List DataRow) (rows : List CsvFactRow)
    (hid : ∀ d ∈ newDataRows rows, idConflict t d = false)
    (htr : uniqueTriples (t ++ newDataRows rows)) :
    insert_data_table t (some rows) = t ++ newDataRows rows ∧
    (newDataRows rows).length = rows.length ∧
    (∀ i : Nat, (newDataRows rows)[i]? = (rows[i]?).map (fun r => get_data_cols i r)) ∧
    (∀ (i : Nat) (r : CsvFactRow), (get_data_cols i r).id = i + 1 ∧
      (get_data_cols i r).series_id = r.series_id ∧
      (get_data_cols i r).area_code = (get_series_parts r.series_id).area_code ∧
      (get_data_cols i r).item_code = (get_series_parts r.series_id).item_code) ∧
    (∀ d : DataRow, arrange_data_cols d column_order = some (rowCells d)) := by
  refine ⟨?_, numberRows_length rows 0, ?_, ?_, ?_⟩
  · have h := insertDataRows_append_all (newDataRows rows) t hid
      (numberRows_ids_pairwise rows 0) htr
    show (match insertDataRows t (newDataRows rows) with
      | some res => res | none => t) = _
    rw [h]
  · intro i
    have h := numberRows_getElem rows 0 i
    simpa using h
  · intro i r
    exact ⟨rfl, rfl, rfl, rfl⟩
  · intro d
    rfl

/-- A second concrete fact-file row, differing from `factRow1` in its
series_id. -/
def factRow2 : CsvFactRow :=
  CsvFactRow.mk "CUUR0100SA0" "1997" "M01" "158.2" ""

/-- Witness for C9: appending two parsed rows to the empty table. -/
theorem insert_data_table_appends_witness :
    (∀ d ∈ newDataRows [factRow1, factRow2], idConflict [] d = false) ∧
    uniqueTriples ([] ++ newDataRows [factRow1, factRow2]) ∧
    insert_data_table [] (some [factRow1, factRow2]) =
      [] ++ newDataRows [factRow1, factRow2] :=
  ⟨by decide, by decide,
   (insert_data_table_appends [] [factRow1, factRow2] (by decide) (by decide)).1⟩

-- The view (create_view) -----------------------------------------------------

/-- One row of `data_view` (the SELECT list of `create_view`,
lines 141–143). -/
structure ViewRow where
  series_id : String
  area_code : String
  area_name : Option String
  item_code : String
  item_name : Option String
  year : String
  period : String
  period_name : Option String
  value : String
  deriving Repr, DecidableEq

/-- SQL LEFT JOIN of one fact row against a dimension table on the
given key value: all matching rows, or one all-null row when none
match. -/
def joinMatches (tbl : List DimRow) (k : String) : List (Option DimRow) :=
  match tbl.filter (fun r => r.head? == some k) with
  | [] => [none]
  | m :: ms => (m :: ms).map some

/-- Build one `data_view` row from a fact row and the three (possibly
null) joined dimension rows: `area_name` is column 1 of `areas`,
`item_name` column 1 of `items`, `period_name` column 2 of `periods`. -/
def mkViewRow (d : DataRow) (a i p : Option DimRow) : ViewRow :=
  { series_id := d.series_id
  , area_code := d.area_code
  , area_name := a.bind (fun r => r[1]?)
  , item_code := d.item_code
  , item_name := i.bind (fun r => r[1]?)
  , year := d.year
  , period := d.period
  , period_name := p.bind (fun r => r[2]?)
  , value := d.value }

/-- The view rows generated by a single fact row: the nested left joins
`data LEFT JOIN areas ON area_code LEFT JOIN items ON item_code LEFT
JOIN periods ON period`. -/
def viewRowsOf (d : DataRow) (areas items periods : List DimRow) : List ViewRow :=
  (joinMatches areas d.area_code).flatMap (fun a =>
    (joinMatches items d.item_code).flatMap (fun i =>
      (joinMatches periods d.period).map (fun p => mkViewRow d a i p)))

/-- `create_view` (lines 137–158): the contents of the (re)created
`data_view`. -/
def create_view (data : List DataRow) (areas items periods : List DimRow) :
    List ViewRow :=
  data.flatMap (fun d => viewRowsOf d areas items periods)

-- Join lemmas ----------------------------------------------------------------

theorem joinMatches_ne_nil (tbl : List DimRow) (k : String) :
    joinMatches tbl k ≠ [] := by
  unfold joinMatches
  rcases hf : tbl.filter (fun r => r.head? == some k) with _ | ⟨m, ms⟩
  · rw [hf]; simp
  · rw [hf]; simp

theorem filter_key_len_le (tbl : List DimRow) (k : String) (hu : keyUnique tbl) :
    (tbl.filter (fun r => r.head? == some k)).length ≤ 1 := by
  rcases hf : tbl.filter (fun r => r.head? == some k) with _ | ⟨m, ms⟩
  · rw [hf]; simp
  · rcases ms with _ | ⟨x, xs⟩
    · rw [hf]; simp
    · exfalso
      have hpw : List.Pairwise (fun r s => r.head? ≠ s.head?)
          (tbl.filter (fun r => r.head? == some k)) :=
        List.Pairwise.sublist (List.filter_sublist tbl) hu
      rw [hf, List.pairwise_cons] at hpw
      have hm : m ∈ tbl.filter (fun r => r.head? == some k) := by
        rw [hf]; exact List.mem_cons_self _ _
      have hx : x ∈ tbl.filter (fun r => r.head? == some k) := by
        rw [hf]; simp
      have hmk : m.head? = some k := by
        have := (List.mem_filter.mp hm).2
        simpa using this
      have hxk : x.head? = some k := by
        have := (List.mem_filter.mp hx).2
        simpa using this
      exact hpw.1 x (List.mem_cons_self _ _) (by rw [hmk, hxk])

theorem joinMatches_length (tbl : List DimRow) (k : String) (hu : keyUnique tbl) :
    (joinMatches tbl k).length = 1 := by
  unfold joinMatches
  rcases hf : tbl.filter (fun r => r.head? == some k) with _ | ⟨m, ms⟩
  · rw [hf]; rfl
  · have hle := filter_key_len_le tbl k hu
    rw [hf] at hle
    simp only [List.length_cons] at hle
    have hms : ms = [] := List.eq_nil_of_length_eq_zero (by omega)
    subst hms
    rw [hf]; rfl

theorem viewRowsOf_length (d : DataRow) (areas items periods : List DimRow)
    (ha : keyUnique areas) (hi : keyUnique items) (hp : keyUnique periods) :
    (viewRowsOf d areas items periods).length = 1 := by
  rcases List.length_eq_one.mp (joinMatches_length areas d.area_code ha) with ⟨a, hea⟩
  rcases List.length_eq_one.mp (joinMatches_length items d.item_code hi) with ⟨i, hei⟩
  rcases List.length_eq_one.mp (joinMatches_length periods d.period hp) with ⟨p, hep⟩
  unfold viewRowsOf
  rw [hea, hei, hep]
  simp

-- C2 -------------------------------------------------------------------------

/-- C2: with unique dimension keys (the primary-key invariant of
`areas`, `items`, `periods`, preserved by every load — see
`insertOrIgnore_keyUnique`), the rebuilt `data_view` has exactly one row
per `data` row: the three left joins never drop a fact row; and a fact
row whose `area_code` matches no `areas` row still appears in the view,
with a null `area_name`. -/
theorem create_view_row_count (data : List DataRow) (areas items periods : List DimRow)
    (ha : keyUnique areas) (hi : keyUnique items) (hp : keyUnique periods) :
    (create_view data areas items periods).length = data.length ∧
    ∀ d ∈ data, (∀ r ∈ areas, ¬ r.head? = some d.area_code) →
      ∃ v ∈ create_view data areas items periods,
        v.series_id = d.series_id ∧ v.area_code = d.area_code ∧
        v.year = d.year ∧ v.period = d.period ∧ v.area_name = none := by
  constructor
  · induction data with
    | nil => rfl
    | cons d ds ih =>
      have h1 : create_view (d :: ds) areas items periods =
          viewRowsOf d areas items periods ++ create_view ds areas items periods := rfl
      rw [h1, List.length_append,
        viewRowsOf_length d areas items periods ha hi hp, ih, List.length_cons]
      omega
  · intro d hd hnone
    have hfa : areas.filter (fun r => r.head? == some d.area_code) = [] := by
      rw [List.filter_eq_nil_iff]
      intro r hr
      simp only [beq_iff_eq]
      exact hnone r hr
    have hja : joinMatches areas d.area_code = [none] := by
      unfold joinMatches
      rw [hfa]
    rcases List.exists_mem_of_ne_nil _ (joinMatches_ne_nil items d.item_code) with ⟨i, hi'⟩
    rcases List.exists_mem_of_ne_nil _ (joinMatches_ne_nil periods d.period) with ⟨p, hp'⟩
    refine ⟨mkViewRow d none i p, ?_, rfl, rfl, rfl, rfl, rfl⟩
    rw [create_view, List.mem_flatMap]
    refine ⟨d, hd, ?_⟩
    rw [viewRowsOf, hja, List.flatMap_cons, List.flatMap_nil, List.append_nil,
      List.mem_flatMap]
    refine ⟨i, hi', ?_⟩
    rw [List.mem_map]
    exact ⟨p, hp', rfl⟩

/-- Concrete tables for the C2 witness: two fact rows, one with a
matching area and one referencing an absent area code. -/
def demoData : List DataRow := newDataRows [factRow1, factRow2]

def demoAreas : List DimRow := [["0000", "U.S. city average", "0", "T", "1"]]

def demoItems : List DimRow := [["SA0", "All items", "0", "T", "1"]]

def demoPeriods : List DimRow := [["M01", "JAN", "January"]]

/-- Witness for C2: the view over the demo tables has one row per fact
row, and the observation with the absent area code "0100" appears with
a null area_name. -/
theorem create_view_row_count_witness :
    (create_view demoData demoAreas demoItems demoPeriods).length = demoData.length ∧
    ∃ v ∈ create_view demoData demoAreas demoItems demoPeriods,
      v.series_id = (get_data_cols 1 factRow2).series_id ∧
      v.area_code = (get_data_cols 1 factRow2).area_code ∧
      v.year = (get_data_cols 1 factRow2).year ∧
      v.period = (get_data_cols 1 factRow2).period ∧
      v.area_name = none :=
  ⟨(create_view_row_count demoData demoAreas demoItems demoPeriods
      (by decide) (by decide) (by decide)).1,
   (create_view_row_count demoData demoAreas demoItems demoPeriods
      (by decide) (by decide) (by decide)).2 (get_data_cols 1 factRow2)
      (by decide) (by decide)⟩

-- update_db ------------------------------------------------------------------

/-- The database state: the four tables of `create_db.py`. -/
structure Db where
  areas : List DimRow
  periods : List DimRow
  items : List DimRow
  data : List DataRow
  deriving Repr, DecidableEq

/-- The outcome of the four fetches (and, for the fact file, the parse)
performed inside one `update_db` run: `none` models a failed
`read_text_from_url` (and, for `dataRows`, also a failed `text_to_df`). -/
structure FetchEnv where
  areasText : Option String
  periodsText : Option String
  itemsText : Option String
  dataRows : Option (List CsvFactRow)

/-- `update_db` (lines 161–176): load the three dimension tables —
areas, periods, items, in source order, each a best-effort
`insert_non_data_table` with separator `'\t'` and the arity declared in
`create_db.py` (5, 3, 5) — then the fact table (`insert_data_table`
with `column_order`), then rebuild the view.  The view is derived
(`create_view` reads the stored tables), so the state is the four
tables. -/
def update_db (db : Db) (env : FetchEnv) : Db :=
  let db1 : Db := { db with areas := insert_non_data_table db.areas 5 env.areasText '\t' }
  let db2 : Db := { db1 with periods := insert_non_data_table db1.periods 3 env.periodsText '\t' }
  let db3 : Db := { db2 with items := insert_non_data_table db2.items 5 env.itemsText '\t' }
  { db3 with data := insert_data_table db3.data env.dataRows }

-- C7 -------------------------------------------------------------------------

/-- C7: when the fetch of a dimension file fails (`read_text_from_url`
returns `None`), `insert_non_data_table` logs and returns, leaving that
table untouched, no exception escapes (the model is total), and the
fact-table load still runs: the resulting `data` table is exactly
`insert_data_table` applied to the previous `data` table, whatever the
dimension fetches did. -/
theorem update_db_best_effort (db : Db) (env : FetchEnv)
    (h : env.areasText = none ∨ env.periodsText = none ∨ env.itemsText = none) :
    (update_db db env).data = insert_data_table db.data env.dataRows ∧
    (env.areasText = none → (update_db db env).areas = db.areas) ∧
    (env.periodsText = none → (update_db db env).periods = db.periods) ∧
    (env.itemsText = none → (update_db db env).items = db.items) := by
  refine ⟨rfl, ?_, ?_, ?_⟩
  · intro ha
    show insert_non_data_table db.areas 5 env.areasText '\t' = db.areas
    rw [ha]
    exact indt_none db.areas 5 '\t'
  · intro hp
    show insert_non_data_table db.periods 3 env.periodsText '\t' = db.periods
    rw [hp]
    exact indt_none db.periods 3 '\t'
  · intro hi
    show insert_non_data_table db.items 5 env.itemsText '\t' = db.items
    rw [hi]
    exact indt_none db.items 5 '\t'

/-- The empty database, as created by `create_db.py`. -/
def emptyDb : Db := Db.mk [] [] [] []

/-- A run in which the areas fetch fails and everything else succeeds. -/
def envAreasFail : FetchEnv :=
  FetchEnv.mk none (some "period\tperiod_abbr\tperiod_name\nM01\tJAN\tJanuary")
    (some "item_code\titem_name\tdisplay_level\tselectable\tsort_sequence\nSA0\tAll items\t0\tT\t1")
    (some [factRow1])

/-- Witness for C7: with the areas fetch failing, the areas table stays
empty and the fact-table load still runs. -/
theorem update_db_best_effort_witness :
    (update_db emptyDb envAreasFail).data =
      insert_data_table emptyDb.data envAreasFail.dataRows ∧
    (update_db emptyDb envAreasFail).areas = emptyDb.areas :=
  ⟨(update_db_best_effort emptyDb envAreasFail (Or.inl rfl)).1,
   (update_db_best_effort emptyDb envAreasFail (Or.inl rfl)).2.1 rfl⟩

-- The __main__ entry point of insert_tables.py -------------------------------

/-- The module-level names `insert_tables.py` binds: its imports
(lines 3–6) and its function definitions.  `os` is not among them — the
module never imports `os`. -/
def insert_tables_module_names : List String :=
  ["sqlite3", "urllib", "pd", "StringIO",
   "read_text_from_url", "text_to_df", "get_data_cols", "arrange_data_cols",
   "create_sqlite_connection", "insert_non_data_table", "insert_data_table",
   "create_view", "update_db"]

/-- What evaluating the `__main__` block can produce. -/
inductive MainOutcome where
  | ran (dbFile : String)
  | raisedNameError (name : String)
  | raisedKeyError (key : String)
  deriving Repr, DecidableEq

/-- The `__main__` block (lines 179–180): evaluating
`update_db(os.environ['DATABASE_URL'])` first resolves the name `os`;
if it is unbound, Python raises NameError before the environment is
even consulted; with it bound, a missing DATABASE_URL would be a
KeyError, and only with both present does `update_db` run. -/
def main_block (environDatabaseUrl : Option String) : MainOutcome :=
  if insert_tables_module_names.contains "os" then
    match environDatabaseUrl with
    | some v => MainOutcome.ran v
    | none => MainOutcome.raisedKeyError "DATABASE_URL"
  else MainOutcome.raisedNameError "os"

-- C8 -------------------------------------------------------------------------

/-- C8: for every environment (DATABASE_URL set or not) the `__main__`
block of `insert_tables.py` raises NameError, because the module never
imports `os`; in particular `update_db` never runs. -/
theorem main_block_name_error (environDatabaseUrl : Option String) :
    main_block environDatabaseUrl = MainOutcome.raisedNameError "os" ∧
    ∀ v : String, main_block environDatabaseUrl ≠ MainOutcome.ran v := by
  have h1 : main_block environDatabaseUrl = MainOutcome.raisedNameError "os" := by
    unfold main_block
    have hc : insert_tables_module_names.contains "os" = false := by decide
    rw [hc]
    rfl
  refine ⟨h1, fun v hv => ?_⟩
  rw [h1] at hv
  cases hv
